import Mathlib

/-!
Shallow embedding of the CRT simulation kernel (`CRTSimulationLogic` and the
logic-bearing GUI handlers of `CRTGui`) from `Main.py`.  Machine floats are
modelled by real numbers; Python's float `%` is modelled by `pymod`
(`a - b * ⌊a / b⌋`, matching the sign-of-divisor semantics); NumPy's `clip`,
`radians`/`deg2rad`, `rad2deg` are modelled directly.
-/

noncomputable section

namespace CRT

open Real

/-- Physical constant `ELECTRON_CHARGE` from `CRTSimulationLogic.__init__`. -/
def ELECTRON_CHARGE : ℝ := 1.602e-19

/-- Physical constant `ELECTRON_MASS` from `CRTSimulationLogic.__init__`. -/
def ELECTRON_MASS : ℝ := 9.109e-31

/-- Visualisation constant `DEFLECTION_SCALE` from `CRTSimulationLogic.__init__`. -/
def DEFLECTION_SCALE : ℝ := 5000

/-- Operating mode: the `self.mode` string, either `'manual'` or `'sinusoidal'`. -/
inductive Mode where
  | manual : Mode
  | sinusoidal : Mode
deriving DecidableEq

/-- `np.radians` / `np.deg2rad`: degrees to radians. -/
def deg2rad (x : ℝ) : ℝ := x * π / 180

/-- `np.rad2deg`: radians to degrees. -/
def rad2deg (x : ℝ) : ℝ := x * 180 / π

/-- Python's float modulo `a % b`: `a - b * ⌊a / b⌋`. -/
def pymod (a b : ℝ) : ℝ := a - b * (⌊a / b⌋ : ℤ)

/-- `np.clip(v, lo, hi)`. -/
def clip (v lo hi : ℝ) : ℝ := min (max v lo) hi

/-- Python slice `l[-k:]` (for `k = 0` this is the whole list, as in Python). -/
def pySliceLast (l : List ℝ) (k : ℕ) : List ℝ :=
  if k = 0 then l else l.drop (l.length - k)

/-- The user-adjustable parameters of `CRTSimulationLogic` (the spec's
Configuration): acceleration voltage, manual voltages, persistence (trail
capacity), mode, the `sine_params` dict, and the tick step `dt`. -/
structure Config where
  acceleration_voltage : ℝ
  manual_vx : ℝ
  manual_vy : ℝ
  persistence : ℕ
  mode : Mode
  amplitude_x : ℝ
  frequency_x : ℝ
  phase_x : ℝ
  amplitude_y : ℝ
  frequency_y : ℝ
  phase_y : ℝ
  dt : ℝ

/-- The full mutable state of `CRTSimulationLogic`: the configuration plus the
simulation variables (`time`, `is_running`, the trail lists, the current
position, the voltage/time history lists, `delta_target_deg`, `t0`). -/
structure SimState where
  cfg : Config
  time : ℝ
  is_running : Bool
  trail_points_x : List ℝ
  trail_points_y : List ℝ
  current_position : ℝ × ℝ
  voltage_history_x : List ℝ
  voltage_history_y : List ℝ
  time_history : List ℝ
  delta_target_deg : ℝ
  t0 : ℝ

/-- The state built by `CRTSimulationLogic.__init__`. -/
def initState : SimState :=
  { cfg :=
      { acceleration_voltage := 2000
        manual_vx := 0
        manual_vy := 0
        persistence := 100
        mode := Mode.manual
        amplitude_x := 50
        frequency_x := 1
        phase_x := 0
        amplitude_y := 50
        frequency_y := 1
        phase_y := 0
        dt := 0.01 }
    time := 0
    is_running := false
    trail_points_x := []
    trail_points_y := []
    current_position := (0, 0)
    voltage_history_x := []
    voltage_history_y := []
    time_history := []
    delta_target_deg := 0
    t0 := 0 }

/-- `calculate_initial_velocity`: kinetic energy guard, then
`sqrt(2·E/m)`. -/
def calculate_initial_velocity (s : SimState) : ℝ :=
  let kinetic_energy := ELECTRON_CHARGE * s.cfg.acceleration_voltage
  if kinetic_energy ≤ 0 then 0
  else Real.sqrt (2 * kinetic_energy / ELECTRON_MASS)

/-- `calculate_deflection`: `0` at zero voltage, otherwise the simplified
proportional formula (the computed initial velocity is unused, as in the
source). -/
def calculate_deflection (s : SimState) (voltage : ℝ) : ℝ :=
  if voltage = 0 then 0
  else
    let _initial_velocity := calculate_initial_velocity s
    let deflection_factor := voltage / max 1 (s.cfg.acceleration_voltage / 1000)
    deflection_factor * DEFLECTION_SCALE / 100000

/-- `get_voltages(t)`: manual voltages in manual mode, the two sinusoids
evaluated at `tt = t - t0` in sinusoidal mode. -/
def get_voltages (s : SimState) (t : ℝ) : ℝ × ℝ :=
  match s.cfg.mode with
  | Mode.manual => (s.cfg.manual_vx, s.cfg.manual_vy)
  | Mode.sinusoidal =>
      let tt := t - s.t0
      (s.cfg.amplitude_x *
         Real.sin (2 * π * s.cfg.frequency_x * tt + deg2rad s.cfg.phase_x),
       s.cfg.amplitude_y *
         Real.sin (2 * π * s.cfg.frequency_y * tt + deg2rad s.cfg.phase_y))

/-- `calculate_position(t)`: deflection of each channel, scaled by 100 and
clipped to the screen bounds. -/
def calculate_position (s : SimState) (t : ℝ) : ℝ × ℝ :=
  let voltages := get_voltages s t
  let deflection_x := calculate_deflection s voltages.1
  let deflection_y := calculate_deflection s voltages.2
  (clip (deflection_x * 100) (-100) 100, clip (deflection_y * 100) (-60) 60)

/-- The history-eviction `while` loop of `step_time`: pop from the head of all
three history lists while more than one sample remains and the time span
exceeds the 5-second window. -/
def evictWindow : List ℝ → List ℝ → List ℝ → List ℝ × List ℝ × List ℝ
  | [], vx, vy => ([], vx, vy)
  | [t], vx, vy => ([t], vx, vy)
  | t :: t2 :: rest, vx, vy =>
      if 5 < (t :: t2 :: rest).getLastD 0 - t then
        evictWindow (t2 :: rest) vx.tail vy.tail
      else (t :: t2 :: rest, vx, vy)

/-- `step_time`: when running, advance `time` by `dt`, recompute the position,
append it to the trail (truncating to the last `persistence` points when the
trail grows beyond `persistence`), append the voltages and time to the history
and evict samples older than the 5-second window; when stopped, only recompute
the current position. -/
def step_time (s : SimState) : SimState :=
  if s.is_running then
    let time' := s.time + s.cfg.dt
    let pos := calculate_position s time'
    let tx0 := s.trail_points_x ++ [pos.1]
    let ty0 := s.trail_points_y ++ [pos.2]
    let tx := if tx0.length > s.cfg.persistence
              then pySliceLast tx0 s.cfg.persistence else tx0
    let ty := if tx0.length > s.cfg.persistence
              then pySliceLast ty0 s.cfg.persistence else ty0
    let voltages := get_voltages s time'
    let vhx := s.voltage_history_x ++ [voltages.1]
    let vhy := s.voltage_history_y ++ [voltages.2]
    let th := s.time_history ++ [time']
    let hist := evictWindow th vhx vhy
    { s with
        time := time'
        current_position := pos
        trail_points_x := tx
        trail_points_y := ty
        time_history := hist.1
        voltage_history_x := hist.2.1
        voltage_history_y := hist.2.2 }
  else
    { s with current_position := calculate_position s s.time }

/-- `_apply_delta_target`: recompute `phase_y` so that δ equals
`delta_target_deg` at the current time, and clear the trail. -/
def apply_delta_target (s : SimState) : SimState :=
  let fx := s.cfg.frequency_x
  let fy := s.cfg.frequency_y
  let df := fy - fx
  let phase_y_deg :=
    pymod (s.cfg.phase_x + s.delta_target_deg - 360 * df * s.time) 360
  { s with
      cfg := { s.cfg with phase_y := phase_y_deg }
      trail_points_x := []
      trail_points_y := [] }

/-- `_set_delta_by_time_origin(delta_deg)`: in the near-synchronized case set
`phase_y` directly; otherwise solve for the time origin `t0`; both branches
clear the trail. -/
def set_delta_by_time_origin (s : SimState) (delta_deg : ℝ) : SimState :=
  let phix := deg2rad s.cfg.phase_x
  let phiy := deg2rad s.cfg.phase_y
  let delta_des := deg2rad delta_deg
  let denom := 2 * π * (s.cfg.frequency_y - s.cfg.frequency_x)
  if |denom| < 1e-12 then
    { s with
        cfg := { s.cfg with phase_y := pymod (rad2deg (phix + delta_des)) 360 }
        trail_points_x := []
        trail_points_y := [] }
  else
    { s with
        t0 := s.time - (delta_des - (phiy - phix)) / denom
        trail_points_x := []
        trail_points_y := [] }

/-- `start()`. -/
def start (s : SimState) : SimState := { s with is_running := true }

/-- `stop()`. -/
def stop (s : SimState) : SimState := { s with is_running := false }

/-- `reset()`: stop, zero the time and `t0`, clear the trail, the current
position and the histories. -/
def reset (s : SimState) : SimState :=
  { s with
      is_running := false
      time := 0
      trail_points_x := []
      trail_points_y := []
      current_position := (0, 0)
      voltage_history_x := []
      voltage_history_y := []
      time_history := []
      t0 := 0 }

/-- GUI handler `_on_acc_changed`: store the new acceleration voltage and,
when paused, recompute the current position. -/
def on_acc_changed (s : SimState) (val : ℝ) : SimState :=
  let s1 : SimState := { s with cfg := { s.cfg with acceleration_voltage := val } }
  if s1.is_running = false then
    { s1 with current_position := calculate_position s1 s1.time }
  else s1

/-- GUI handler `_on_pers_changed`: store the new persistence and truncate the
trail if it now exceeds it. -/
def on_pers_changed (s : SimState) (val : ℕ) : SimState :=
  let s1 : SimState := { s with cfg := { s.cfg with persistence := val } }
  if s1.trail_points_x.length > s1.cfg.persistence then
    { s1 with
        trail_points_x := pySliceLast s1.trail_points_x s1.cfg.persistence
        trail_points_y := pySliceLast s1.trail_points_y s1.cfg.persistence }
  else s1

/-- GUI handler `_on_vx_changed`: store the new manual X voltage and, when
paused in manual mode, recompute the current position. -/
def on_vx_changed (s : SimState) (val : ℝ) : SimState :=
  let s1 : SimState := { s with cfg := { s.cfg with manual_vx := val } }
  if s1.is_running = false ∧ s1.cfg.mode = Mode.manual then
    { s1 with current_position := calculate_position s1 s1.time }
  else s1

/-- GUI handler `_on_vy_changed`: store the new manual Y voltage and, when
paused in manual mode, recompute the current position. -/
def on_vy_changed (s : SimState) (val : ℝ) : SimState :=
  let s1 : SimState := { s with cfg := { s.cfg with manual_vy := val } }
  if s1.is_running = false ∧ s1.cfg.mode = Mode.manual then
    { s1 with current_position := calculate_position s1 s1.time }
  else s1

/-- GUI handler `_on_mode_changed`: switch the mode and clear the trail. -/
def on_mode_changed (s : SimState) (m : Mode) : SimState :=
  { s with
      cfg := { s.cfg with mode := m }
      trail_points_x := []
      trail_points_y := [] }

/-- GUI handler `_on_ampx_changed`: store the new X amplitude (nothing else). -/
def on_ampx_changed (s : SimState) (val : ℝ) : SimState :=
  { s with cfg := { s.cfg with amplitude_x := val } }

/-- GUI handler `_on_ampy_changed`: store the new Y amplitude (nothing else). -/
def on_ampy_changed (s : SimState) (val : ℝ) : SimState :=
  { s with cfg := { s.cfg with amplitude_y := val } }

/-- GUI handler `_on_fx_changed`: store the new X frequency and re-anchor the
time origin to keep δ. -/
def on_fx_changed (s : SimState) (val : ℝ) : SimState :=
  let s1 : SimState := { s with cfg := { s.cfg with frequency_x := val } }
  set_delta_by_time_origin s1 s1.delta_target_deg

/-- GUI handler `_on_fy_changed`: store the new Y frequency and re-anchor the
time origin to keep δ. -/
def on_fy_changed (s : SimState) (val : ℝ) : SimState :=
  let s1 : SimState := { s with cfg := { s.cfg with frequency_y := val } }
  set_delta_by_time_origin s1 s1.delta_target_deg

/-- GUI handler `_on_phix_changed`: store the new X phase and re-derive
`phase_y` from the δ target. -/
def on_phix_changed (s : SimState) (val : ℝ) : SimState :=
  let s1 : SimState := { s with cfg := { s.cfg with phase_x := val } }
  apply_delta_target s1

/-- GUI handler `_on_phiy_changed`: store the new Y phase (nothing else). -/
def on_phiy_changed (s : SimState) (val : ℝ) : SimState :=
  { s with cfg := { s.cfg with phase_y := val } }

/-- GUI handler `_on_delta_preset_changed`: store the new δ target; with equal
frequencies set `phase_y` directly, otherwise re-anchor the time origin; clear
the trail. -/
def on_delta_preset_changed (s : SimState) (d : ℝ) : SimState :=
  let s1 : SimState := { s with delta_target_deg := d }
  let s2 : SimState :=
    if s1.cfg.frequency_x = s1.cfg.frequency_y then
      let new_phiy := pymod (s1.cfg.phase_x + s1.delta_target_deg) 360
      { s1 with cfg := { s1.cfg with phase_y := new_phiy } }
    else
      set_delta_by_time_origin s1 s1.delta_target_deg
  { s2 with trail_points_x := [], trail_points_y := [] }

/-- Iterated ticks: `ticks s n` is the state after `n` calls of `step_time`. -/
def ticks (s : SimState) : ℕ → SimState
  | 0 => s
  | n + 1 => step_time (ticks s n)

/-- The sequence of positions a run of `n` ticks computes when started from
`s`: the position of the (unchanged) configuration at times
`s.time + k·dt`, `k = 1..n`. -/
def posList (s : SimState) : ℕ → List (ℝ × ℝ)
  | 0 => []
  | n + 1 => posList s n ++ [calculate_position s (s.time + (n + 1 : ℕ) * s.cfg.dt)]

/-- The parallel-buffer well-formedness invariant: the two trail lists have
equal length and the three history lists have equal length. -/
def BuffersWF (s : SimState) : Prop :=
  s.trail_points_x.length = s.trail_points_y.length ∧
  s.time_history.length = s.voltage_history_x.length ∧
  s.time_history.length = s.voltage_history_y.length

/-! ### Helper lemmas -/

lemma clip_bounds (v lo hi : ℝ) (h : lo ≤ hi) :
    lo ≤ clip v lo hi ∧ clip v lo hi ≤ hi :=
  ⟨le_min (le_max_right v lo) h, min_le_right _ _⟩

lemma calculate_position_congr (s₁ s₂ : SimState) (hc : s₁.cfg = s₂.cfg)
    (ht : s₁.t0 = s₂.t0) (t : ℝ) :
    calculate_position s₁ t = calculate_position s₂ t := by
  unfold calculate_position calculate_deflection calculate_initial_velocity get_voltages
  rw [hc, ht]

lemma set_delta_current_position (s : SimState) (d : ℝ) :
    (set_delta_by_time_origin s d).current_position = s.current_position := by
  simp only [set_delta_by_time_origin]
  split <;> rfl

lemma step_time_cfg (s : SimState) : (step_time s).cfg = s.cfg := by
  unfold step_time; split <;> rfl

lemma step_time_t0 (s : SimState) : (step_time s).t0 = s.t0 := by
  unfold step_time; split <;> rfl

lemma step_time_is_running (s : SimState) :
    (step_time s).is_running = s.is_running := by
  unfold step_time; split <;> rfl

lemma step_time_stopped_aux (s : SimState) (hr : s.is_running = false) :
    (step_time s).trail_points_x = s.trail_points_x ∧
    (step_time s).trail_points_y = s.trail_points_y ∧
    (step_time s).time_history = s.time_history ∧
    (step_time s).voltage_history_x = s.voltage_history_x ∧
    (step_time s).voltage_history_y = s.voltage_history_y := by
  simp [step_time, hr]

lemma pymod_sub_int_mul (a : ℝ) (k : ℤ) :
    pymod (a - 360 * k) 360 = pymod a 360 := by
  unfold pymod
  have h : (a - 360 * k) / 360 = a / 360 - k := by
    field_simp
  rw [h, Int.floor_sub_int]
  push_cast
  ring

lemma pymod_eq_self (a : ℝ) (h0 : 0 ≤ a) (h1 : a < 360) : pymod a 360 = a := by
  unfold pymod
  have hfl : ⌊a / 360⌋ = 0 := by
    rw [Int.floor_eq_zero_iff]
    constructor
    · positivity
    · rw [div_lt_one (by norm_num)]
      linarith
  rw [hfl]
  push_cast
  ring

lemma pymod_shift_cancel (px d : ℝ) (h0 : 0 ≤ d) (h1 : d < 360) :
    pymod (pymod (px + d) 360 - px) 360 = d := by
  have h : pymod (px + d) 360 - px = d - 360 * (⌊(px + d) / 360⌋ : ℤ) := by
    unfold pymod; ring
  rw [h, pymod_sub_int_mul, pymod_eq_self d h0 h1]

/-! ### Claims -/

/-- Claim C3: for every configuration (any mode, voltages, amplitudes,
frequencies, phases, acceleration voltage) and every time `t`,
`calculate_position` returns a point with `x ∈ [-100, 100]` and
`y ∈ [-60, 60]`. -/
theorem calculate_position_clamped (s : SimState) (t : ℝ) :
    -100 ≤ (calculate_position s t).1 ∧ (calculate_position s t).1 ≤ 100 ∧
    -60 ≤ (calculate_position s t).2 ∧ (calculate_position s t).2 ≤ 60 := by
  unfold calculate_position
  have hx := clip_bounds
    (calculate_deflection s (get_voltages s t).1 * 100) (-100) 100 (by norm_num)
  have hy := clip_bounds
    (calculate_deflection s (get_voltages s t).2 * 100) (-60) 60 (by norm_num)
  exact ⟨hx.1, hx.2, hy.1, hy.2⟩

/-- Claim C9: `calculate_deflection` returns exactly `0` at zero voltage, and
for every nonzero voltage it returns
`(v / max 1 (accelerationVoltage / 1000)) · 5000 / 100000`. -/
theorem calculate_deflection_spec (s : SimState) :
    calculate_deflection s 0 = 0 ∧
    ∀ v : ℝ, v ≠ 0 →
      calculate_deflection s v =
        v / max 1 (s.cfg.acceleration_voltage / 1000) * 5000 / 100000 := by
  constructor
  · simp [calculate_deflection]
  · intro v hv
    simp [calculate_deflection, hv, DEFLECTION_SCALE]

/-- Witness for C9 at the initial state and `v = 1`. -/
theorem calculate_deflection_spec_witness :
    (1 : ℝ) ≠ 0 ∧
    calculate_deflection initState 1 =
      1 / max 1 (initState.cfg.acceleration_voltage / 1000) * 5000 / 100000 :=
  ⟨by norm_num, (calculate_deflection_spec initState).2 1 (by norm_num)⟩

/-- Claim C8: when the simulation is stopped, `step_time` recomputes the
stored position from the current time and configuration but changes nothing
else: time, `t0`, the trail, the histories and the configuration are all
unchanged. -/
theorem step_time_stopped (s : SimState) (h : s.is_running = false) :
    (step_time s).current_position = calculate_position s s.time ∧
    (step_time s).time = s.time ∧
    (step_time s).t0 = s.t0 ∧
    (step_time s).trail_points_x = s.trail_points_x ∧
    (step_time s).trail_points_y = s.trail_points_y ∧
    (step_time s).time_history = s.time_history ∧
    (step_time s).voltage_history_x = s.voltage_history_x ∧
    (step_time s).voltage_history_y = s.voltage_history_y ∧
    (step_time s).cfg = s.cfg := by
  simp [step_time, h]

/-- Witness for C8 at the (stopped) initial state. -/
theorem step_time_stopped_witness :
    initState.is_running = false ∧
    ((step_time initState).current_position =
        calculate_position initState initState.time ∧
      (step_time initState).time = initState.time ∧
      (step_time initState).t0 = initState.t0 ∧
      (step_time initState).trail_points_x = initState.trail_points_x ∧
      (step_time initState).trail_points_y = initState.trail_points_y ∧
      (step_time initState).time_history = initState.time_history ∧
      (step_time initState).voltage_history_x = initState.voltage_history_x ∧
      (step_time initState).voltage_history_y = initState.voltage_history_y ∧
      (step_time initState).cfg = initState.cfg) :=
  ⟨rfl, step_time_stopped initState rfl⟩

/-- A state whose δ target has been moved away from its initial value. -/
def deltaState : SimState := { initState with delta_target_deg := 90 }

/-- Counterexample to C4 as stated: after `reset` from a state whose
`delta_target_deg` is 90, `delta_target_deg` is still 90, not 0 — `reset`
does not restore `targetDeltaDeg` to its initial zero value. -/
theorem reset_delta_counterexample :
    ¬ ((reset deltaState).delta_target_deg = 0) := by
  norm_num [reset, deltaState]

/-- Claim C4 (amended): after `reset()`, `time = 0`, `running = false`,
`timeOriginOffset = 0`, the trail, the voltage history and the current
position are cleared, and the configuration parameters are unchanged; however
`targetDeltaDeg` is not reset — it retains its pre-reset value. -/
theorem reset_spec (s : SimState) :
    (reset s).time = 0 ∧
    (reset s).is_running = false ∧
    (reset s).t0 = 0 ∧
    (reset s).trail_points_x = [] ∧
    (reset s).trail_points_y = [] ∧
    (reset s).current_position = (0, 0) ∧
    (reset s).voltage_history_x = [] ∧
    (reset s).voltage_history_y = [] ∧
    (reset s).time_history = [] ∧
    (reset s).cfg = s.cfg ∧
    (reset s).delta_target_deg = s.delta_target_deg := by
  simp [reset]

/-- Claim C1: whenever `|2π·(frequencyY − frequencyX)| ≥ 1e-12`,
`set_delta_by_time_origin d` at current time `t` sets
`t0 = t − (radians d − (radians phaseY − radians phaseX)) / (2π·(fY − fX))`,
and the instantaneous phase difference of the two sinusoidal channels
evaluated at `t` then equals `radians d` within `1e-9` rad. -/
theorem set_delta_by_time_origin_phase_lock (s : SimState) (d : ℝ)
    (h : 1e-12 ≤ |2 * π * (s.cfg.frequency_y - s.cfg.frequency_x)|) :
    (set_delta_by_time_origin s d).t0 =
      s.time - (deg2rad d - (deg2rad s.cfg.phase_y - deg2rad s.cfg.phase_x)) /
        (2 * π * (s.cfg.frequency_y - s.cfg.frequency_x)) ∧
    |((2 * π * s.cfg.frequency_y * (s.time - (set_delta_by_time_origin s d).t0) +
         deg2rad s.cfg.phase_y) -
       (2 * π * s.cfg.frequency_x * (s.time - (set_delta_by_time_origin s d).t0) +
         deg2rad s.cfg.phase_x)) - deg2rad d| ≤ 1e-9 := by
  have hlt : ¬ |2 * π * (s.cfg.frequency_y - s.cfg.frequency_x)| < 1e-12 :=
    not_lt.mpr h
  have hne : 2 * π * (s.cfg.frequency_y - s.cfg.frequency_x) ≠ 0 := by
    intro h0
    rw [h0, abs_zero] at h
    norm_num at h
  have ht0 : (set_delta_by_time_origin s d).t0 =
      s.time - (deg2rad d - (deg2rad s.cfg.phase_y - deg2rad s.cfg.phase_x)) /
        (2 * π * (s.cfg.frequency_y - s.cfg.frequency_x)) := by
    simp only [set_delta_by_time_origin]
    rw [if_neg hlt]
  refine ⟨ht0, ?_⟩
  rw [ht0]
  have hdiff :
      (2 * π * s.cfg.frequency_y *
          (s.time - (s.time -
            (deg2rad d - (deg2rad s.cfg.phase_y - deg2rad s.cfg.phase_x)) /
              (2 * π * (s.cfg.frequency_y - s.cfg.frequency_x)))) +
        deg2rad s.cfg.phase_y) -
      (2 * π * s.cfg.frequency_x *
          (s.time - (s.time -
            (deg2rad d - (deg2rad s.cfg.phase_y - deg2rad s.cfg.phase_x)) /
              (2 * π * (s.cfg.frequency_y - s.cfg.frequency_x)))) +
        deg2rad s.cfg.phase_x) = deg2rad d := by
    field_simp
    ring
  rw [hdiff, sub_self, abs_zero]
  norm_num

/-- A state with frequency ratio 1:2, used as the C1 witness input. -/
def stC1 : SimState := { initState with cfg := { initState.cfg with frequency_y := 2 } }

/-- Witness for C1 at a 1:2 frequency ratio and `d = 90`. -/
theorem set_delta_by_time_origin_phase_lock_witness :
    1e-12 ≤ |2 * π * (stC1.cfg.frequency_y - stC1.cfg.frequency_x)| ∧
    ((set_delta_by_time_origin stC1 90).t0 =
      stC1.time - (deg2rad 90 - (deg2rad stC1.cfg.phase_y - deg2rad stC1.cfg.phase_x)) /
        (2 * π * (stC1.cfg.frequency_y - stC1.cfg.frequency_x)) ∧
    |((2 * π * stC1.cfg.frequency_y * (stC1.time - (set_delta_by_time_origin stC1 90).t0) +
         deg2rad stC1.cfg.phase_y) -
       (2 * π * stC1.cfg.frequency_x * (stC1.time - (set_delta_by_time_origin stC1 90).t0) +
         deg2rad stC1.cfg.phase_x)) - deg2rad 90| ≤ 1e-9) := by
  have h : 1e-12 ≤ |2 * π * (stC1.cfg.frequency_y - stC1.cfg.frequency_x)| := by
    have hpi := Real.pi_gt_three
    have h1 : stC1.cfg.frequency_y - stC1.cfg.frequency_x = 1 := by
      norm_num [stC1, initState]
    rw [h1, mul_one, abs_of_pos (by positivity)]
    nlinarith
  exact ⟨h, set_delta_by_time_origin_phase_lock stC1 90 h⟩

/-- Claim C2: with equal channel frequencies, the δ-preset path (and the
near-zero-denominator branch of `set_delta_by_time_origin`) sets
`phase_y` so that `(phase_y − phase_x) mod 360 = d` exactly, and leaves `t0`
unchanged.  (`d` ranges over the preset values, all in `[0, 360)`.) -/
theorem delta_preset_one_to_one (s : SimState) (d : ℝ)
    (hf : s.cfg.frequency_x = s.cfg.frequency_y) (h0 : 0 ≤ d) (h1 : d < 360) :
    (pymod ((on_delta_preset_changed s d).cfg.phase_y -
            (on_delta_preset_changed s d).cfg.phase_x) 360 = d ∧
     (on_delta_preset_changed s d).t0 = s.t0) ∧
    (pymod ((set_delta_by_time_origin s d).cfg.phase_y -
            (set_delta_by_time_origin s d).cfg.phase_x) 360 = d ∧
     (set_delta_by_time_origin s d).t0 = s.t0) := by
  have hd0 : 2 * π * (s.cfg.frequency_y - s.cfg.frequency_x) = 0 := by
    rw [hf]; ring
  have habs : |2 * π * (s.cfg.frequency_y - s.cfg.frequency_x)| < 1e-12 := by
    rw [hd0, abs_zero]; norm_num
  have hdeg : rad2deg (deg2rad s.cfg.phase_x + deg2rad d) = s.cfg.phase_x + d := by
    unfold rad2deg deg2rad
    field_simp
    ring
  constructor
  · constructor
    · simp only [on_delta_preset_changed, hf, if_true]
      exact pymod_shift_cancel s.cfg.phase_x d h0 h1
    · simp only [on_delta_preset_changed, hf, if_true]
  · constructor
    · simp only [set_delta_by_time_origin]
      rw [if_pos habs]
      simp only
      rw [hdeg]
      exact pymod_shift_cancel s.cfg.phase_x d h0 h1
    · simp only [set_delta_by_time_origin]
      rw [if_pos habs]

/-- Witness for C2 at the initial (1:1) state with `d = 90`. -/
theorem delta_preset_one_to_one_witness :
    initState.cfg.frequency_x = initState.cfg.frequency_y ∧ (0:ℝ) ≤ 90 ∧ (90:ℝ) < 360 ∧
    ((pymod ((on_delta_preset_changed initState 90).cfg.phase_y -
             (on_delta_preset_changed initState 90).cfg.phase_x) 360 = 90 ∧
      (on_delta_preset_changed initState 90).t0 = initState.t0) ∧
     (pymod ((set_delta_by_time_origin initState 90).cfg.phase_y -
             (set_delta_by_time_origin initState 90).cfg.phase_x) 360 = 90 ∧
      (set_delta_by_time_origin initState 90).t0 = initState.t0)) :=
  ⟨rfl, by norm_num, by norm_num,
    delta_preset_one_to_one initState 90 rfl (by norm_num) (by norm_num)⟩

/-- A stopped sinusoidal-mode state whose X phase is 90°: here the stored
position and the position the configuration dictates disagree after an
amplitude edit. -/
def stC5 : SimState :=
  { initState with
      cfg := { initState.cfg with mode := Mode.sinusoidal, phase_x := 90 } }

/-- Counterexample to C5 as stated: in sinusoidal mode, stopped, the
amplitude setter `_on_ampx_changed` does not recompute the stored position,
so immediately after it returns the stored position (0,0) differs from
`calculate_position` at the current time, which is (100, 0). -/
theorem eager_ampx_counterexample :
    ¬ ((on_ampx_changed stC5 50).current_position =
       calculate_position (on_ampx_changed stC5 50)
         ((on_ampx_changed stC5 50).time)) := by
  intro h
  have hsin90 : Real.sin (deg2rad 90) = 1 := by
    have : deg2rad 90 = π / 2 := by unfold deg2rad; ring
    rw [this, Real.sin_pi_div_two]
  have hsin0 : Real.sin (deg2rad 0) = 0 := by
    have : deg2rad 0 = 0 := by unfold deg2rad; ring
    rw [this, Real.sin_zero]
  have hpos : calculate_position (on_ampx_changed stC5 50)
      ((on_ampx_changed stC5 50).time) = (100, 0) := by
    simp only [calculate_position, get_voltages, on_ampx_changed, stC5, initState]
    norm_num [hsin90, hsin0, calculate_deflection, clip, DEFLECTION_SCALE]
  rw [hpos] at h
  have h0 : (on_ampx_changed stC5 50).current_position = (0, 0) := rfl
  rw [h0] at h
  have := congrArg Prod.fst h
  norm_num at this

/-- Claim C5 (amended): while stopped, the acceleration-voltage setter (in
any mode) and the manual-voltage setters (in manual mode) eagerly recompute
the stored position, so it equals `calculate_position` at the current time;
the sinusoidal channel setters (amplitude, frequency, phase) do not
recompute the stored position — they leave it unchanged. -/
theorem eager_recompute_spec (s : SimState) (v : ℝ) (h : s.is_running = false) :
    ((on_acc_changed s v).current_position =
       calculate_position (on_acc_changed s v) ((on_acc_changed s v).time)) ∧
    (s.cfg.mode = Mode.manual →
      ((on_vx_changed s v).current_position =
         calculate_position (on_vx_changed s v) ((on_vx_changed s v).time)) ∧
      ((on_vy_changed s v).current_position =
         calculate_position (on_vy_changed s v) ((on_vy_changed s v).time))) ∧
    (on_ampx_changed s v).current_position = s.current_position ∧
    (on_ampy_changed s v).current_position = s.current_position ∧
    (on_fx_changed s v).current_position = s.current_position ∧
    (on_fy_changed s v).current_position = s.current_position ∧
    (on_phix_changed s v).current_position = s.current_position ∧
    (on_phiy_changed s v).current_position = s.current_position := by
  refine ⟨?_, ?_, rfl, rfl, ?_, ?_, rfl, rfl⟩
  · simp only [on_acc_changed, h, if_true]
    exact calculate_position_congr _ _ rfl rfl _
  · intro hm
    constructor
    · simp only [on_vx_changed, h, hm, and_self, if_true]
      exact calculate_position_congr _ _ rfl rfl _
    · simp only [on_vy_changed, h, hm, and_self, if_true]
      exact calculate_position_congr _ _ rfl rfl _
  · simp only [on_fx_changed]
    exact set_delta_current_position _ _
  · simp only [on_fy_changed]
    exact set_delta_current_position _ _

/-- Witness for C5 (amended) at the stopped initial state and `v = 7`. -/
theorem eager_recompute_spec_witness :
    initState.is_running = false ∧
    (((on_acc_changed initState 7).current_position =
       calculate_position (on_acc_changed initState 7)
         ((on_acc_changed initState 7).time)) ∧
    (initState.cfg.mode = Mode.manual →
      ((on_vx_changed initState 7).current_position =
         calculate_position (on_vx_changed initState 7)
           ((on_vx_changed initState 7).time)) ∧
      ((on_vy_changed initState 7).current_position =
         calculate_position (on_vy_changed initState 7)
           ((on_vy_changed initState 7).time))) ∧
    (on_ampx_changed initState 7).current_position = initState.current_position ∧
    (on_ampy_changed initState 7).current_position = initState.current_position ∧
    (on_fx_changed initState 7).current_position = initState.current_position ∧
    (on_fy_changed initState 7).current_position = initState.current_position ∧
    (on_phix_changed initState 7).current_position = initState.current_position ∧
    (on_phiy_changed initState 7).current_position = initState.current_position) :=
  ⟨rfl, eager_recompute_spec initState 7 rfl⟩

/-! ### Tick iteration helpers -/

lemma ticks_cfg (s : SimState) (n : ℕ) : (ticks s n).cfg = s.cfg := by
  induction n with
  | zero => rfl
  | succ n ih =>
    show (step_time (ticks s n)).cfg = s.cfg
    rw [step_time_cfg, ih]

lemma ticks_t0 (s : SimState) (n : ℕ) : (ticks s n).t0 = s.t0 := by
  induction n with
  | zero => rfl
  | succ n ih =>
    show (step_time (ticks s n)).t0 = s.t0
    rw [step_time_t0, ih]

lemma ticks_is_running (s : SimState) (n : ℕ) :
    (ticks s n).is_running = s.is_running := by
  induction n with
  | zero => rfl
  | succ n ih =>
    show (step_time (ticks s n)).is_running = s.is_running
    rw [step_time_is_running, ih]

lemma step_time_run_time (s : SimState) (h : s.is_running = true) :
    (step_time s).time = s.time + s.cfg.dt := by
  simp [step_time, h]

lemma ticks_time (s : SimState) (h : s.is_running = true) (n : ℕ) :
    (ticks s n).time = s.time + n * s.cfg.dt := by
  induction n with
  | zero => simp [ticks]
  | succ n ih =>
    show (step_time (ticks s n)).time = _
    rw [step_time_run_time _ (by rw [ticks_is_running]; exact h), ih, ticks_cfg]
    push_cast
    ring

lemma posList_length (s : SimState) (n : ℕ) : (posList s n).length = n := by
  induction n with
  | zero => rfl
  | succ n ih => simp [posList, ih]

lemma step_time_run_trail_x (s : SimState) (h : s.is_running = true) :
    (step_time s).trail_points_x =
      if (s.trail_points_x ++
            [(calculate_position s (s.time + s.cfg.dt)).1]).length >
          s.cfg.persistence
      then pySliceLast
        (s.trail_points_x ++ [(calculate_position s (s.time + s.cfg.dt)).1])
        s.cfg.persistence
      else s.trail_points_x ++ [(calculate_position s (s.time + s.cfg.dt)).1] := by
  simp [step_time, h]

lemma step_time_run_trail_y (s : SimState) (h : s.is_running = true) :
    (step_time s).trail_points_y =
      if (s.trail_points_x ++
            [(calculate_position s (s.time + s.cfg.dt)).1]).length >
          s.cfg.persistence
      then pySliceLast
        (s.trail_points_y ++ [(calculate_position s (s.time + s.cfg.dt)).2])
        s.cfg.persistence
      else s.trail_points_y ++ [(calculate_position s (s.time + s.cfg.dt)).2] := by
  simp [step_time, h]

lemma step_time_run_history (s : SimState) (h : s.is_running = true) :
    (step_time s).time_history =
      (evictWindow (s.time_history ++ [s.time + s.cfg.dt])
        (s.voltage_history_x ++
          [(get_voltages s (s.time + s.cfg.dt)).1])
        (s.voltage_history_y ++
          [(get_voltages s (s.time + s.cfg.dt)).2])).1 := by
  simp [step_time, h]

lemma step_time_run_vhx (s : SimState) (h : s.is_running = true) :
    (step_time s).voltage_history_x =
      (evictWindow (s.time_history ++ [s.time + s.cfg.dt])
        (s.voltage_history_x ++
          [(get_voltages s (s.time + s.cfg.dt)).1])
        (s.voltage_history_y ++
          [(get_voltages s (s.time + s.cfg.dt)).2])).2.1 := by
  simp [step_time, h]

lemma step_time_run_vhy (s : SimState) (h : s.is_running = true) :
    (step_time s).voltage_history_y =
      (evictWindow (s.time_history ++ [s.time + s.cfg.dt])
        (s.voltage_history_x ++
          [(get_voltages s (s.time + s.cfg.dt)).1])
        (s.voltage_history_y ++
          [(get_voltages s (s.time + s.cfg.dt)).2])).2.2 := by
  simp [step_time, h]

lemma slice_step (Lx Ly : List ℝ) (a b : ℝ) (cap n : ℕ) (hcap : 1 ≤ cap)
    (hLx : Lx.length = n) (hLy : Ly.length = n) :
    (if (Lx.drop (n - cap) ++ [a]).length > cap
     then pySliceLast (Ly.drop (n - cap) ++ [b]) cap
     else Ly.drop (n - cap) ++ [b]) =
    (Ly ++ [b]).drop (n + 1 - cap) := by
  by_cases hc : cap ≤ n
  · have hcond : (Lx.drop (n - cap) ++ [a]).length > cap := by
      simp only [List.length_append, List.length_drop, List.length_cons,
        List.length_nil, hLx]
      omega
    rw [if_pos hcond]
    unfold pySliceLast
    rw [if_neg (by omega : ¬ cap = 0)]
    have hlen : (Ly.drop (n - cap) ++ [b]).length = cap + 1 := by
      simp only [List.length_append, List.length_drop, List.length_cons,
        List.length_nil, hLy]
      omega
    rw [hlen]
    have h1 : cap + 1 - cap = 1 := by omega
    rw [h1]
    rw [← List.drop_append_of_le_length (by omega : n - cap ≤ Ly.length)]
    rw [List.drop_drop]
    congr 1
    omega
  · have h0 : n - cap = 0 := by omega
    have h1 : n + 1 - cap = 0 := by omega
    rw [h0, h1]
    rw [if_neg (by
      simp only [List.drop_zero, List.length_append, List.length_cons,
        List.length_nil, hLx]
      omega)]
    simp

lemma ticks_trail (s : SimState) (hrun : s.is_running = true)
    (hx : s.trail_points_x = []) (hy : s.trail_points_y = [])
    (hcap : 1 ≤ s.cfg.persistence) (n : ℕ) :
    (ticks s n).trail_points_x =
      ((posList s n).map Prod.fst).drop (n - s.cfg.persistence) ∧
    (ticks s n).trail_points_y =
      ((posList s n).map Prod.snd).drop (n - s.cfg.persistence) := by
  induction n with
  | zero =>
    constructor
    · simpa [ticks, posList] using hx
    · simpa [ticks, posList] using hy
  | succ n ih =>
    have hrun' : (ticks s n).is_running = true := by
      rw [ticks_is_running]; exact hrun
    have hcfg := ticks_cfg s n
    have ht0 := ticks_t0 s n
    have htime := ticks_time s hrun n
    have hpos : calculate_position (ticks s n)
        ((ticks s n).time + (ticks s n).cfg.dt) =
        calculate_position s (s.time + ((n + 1 : ℕ) : ℝ) * s.cfg.dt) := by
      rw [calculate_position_congr (ticks s n) s hcfg ht0]
      congr 1
      rw [htime, hcfg]
      push_cast
      ring
    have hLx : ((posList s n).map Prod.fst).length = n := by
      rw [List.length_map, posList_length]
    have hLy : ((posList s n).map Prod.snd).length = n := by
      rw [List.length_map, posList_length]
    have hplist : posList s (n + 1) =
        posList s n ++ [calculate_position s (s.time + ((n + 1 : ℕ) : ℝ) * s.cfg.dt)] :=
      rfl
    constructor
    · show (step_time (ticks s n)).trail_points_x = _
      rw [step_time_run_trail_x _ hrun', hpos, hcfg, ih.1, hplist,
        List.map_append]
      exact slice_step ((posList s n).map Prod.fst) ((posList s n).map Prod.fst)
        (calculate_position s (s.time + ((n + 1 : ℕ) : ℝ) * s.cfg.dt)).1
        (calculate_position s (s.time + ((n + 1 : ℕ) : ℝ) * s.cfg.dt)).1
        s.cfg.persistence n hcap hLx hLx
    · show (step_time (ticks s n)).trail_points_y = _
      rw [step_time_run_trail_y _ hrun', hpos, hcfg, ih.1, ih.2, hplist,
        List.map_append]
      exact slice_step ((posList s n).map Prod.fst) ((posList s n).map Prod.snd)
        (calculate_position s (s.time + ((n + 1 : ℕ) : ℝ) * s.cfg.dt)).1
        (calculate_position s (s.time + ((n + 1 : ℕ) : ℝ) * s.cfg.dt)).2
        s.cfg.persistence n hcap hLx hLy

/-- Claim C6: from a running state with an empty trail and
`persistence ≥ 1`, after any number `n` of ticks the trail never exceeds
`persistence` points, has exactly `min n persistence` points, and consists
of the most recent `min n persistence` computed positions in chronological
order (the suffix of the list of all `n` computed positions). -/
theorem trail_bound (s : SimState) (hrun : s.is_running = true)
    (hx : s.trail_points_x = []) (hy : s.trail_points_y = [])
    (hcap : 1 ≤ s.cfg.persistence) (n : ℕ) :
    (ticks s n).trail_points_x.length ≤ s.cfg.persistence ∧
    (ticks s n).trail_points_x.length = min n s.cfg.persistence ∧
    (ticks s n).trail_points_x =
      ((posList s n).map Prod.fst).drop (n - s.cfg.persistence) ∧
    (ticks s n).trail_points_y =
      ((posList s n).map Prod.snd).drop (n - s.cfg.persistence) := by
  obtain ⟨h1, h2⟩ := ticks_trail s hrun hx hy hcap n
  refine ⟨?_, ?_, h1, h2⟩
  · rw [h1, List.length_drop, List.length_map, posList_length]
    omega
  · rw [h1, List.length_drop, List.length_map, posList_length]
    omega

/-- Witness for C6: three ticks from the started initial state. -/
theorem trail_bound_witness :
    (start initState).is_running = true ∧
    (start initState).trail_points_x = [] ∧
    (start initState).trail_points_y = [] ∧
    1 ≤ (start initState).cfg.persistence ∧
    ((ticks (start initState) 3).trail_points_x.length ≤
        (start initState).cfg.persistence ∧
      (ticks (start initState) 3).trail_points_x.length =
        min 3 (start initState).cfg.persistence ∧
      (ticks (start initState) 3).trail_points_x =
        ((posList (start initState) 3).map Prod.fst).drop
          (3 - (start initState).cfg.persistence) ∧
      (ticks (start initState) 3).trail_points_y =
        ((posList (start initState) 3).map Prod.snd).drop
          (3 - (start initState).cfg.persistence)) :=
  ⟨rfl, rfl, rfl, by norm_num [start, initState],
    trail_bound (start initState) rfl rfl rfl
      (by norm_num [start, initState]) 3⟩

/-! ### History-window helpers -/

lemma evictWindow_cons_ne_nil :
    ∀ (rest : List ℝ) (t : ℝ) (vx vy : List ℝ),
      (evictWindow (t :: rest) vx vy).1 ≠ [] := by
  intro rest
  induction rest with
  | nil =>
    intro t vx vy
    simp [evictWindow]
  | cons t2 r2 ih =>
    intro t vx vy
    simp only [evictWindow]
    split
    · exact ih t2 vx.tail vy.tail
    · simp

lemma evictWindow_fst_ne_nil (th vx vy : List ℝ) (h : th ≠ []) :
    (evictWindow th vx vy).1 ≠ [] := by
  cases th with
  | nil => exact absurd rfl h
  | cons t rest => exact evictWindow_cons_ne_nil rest t vx vy

lemma evictWindow_cons_window :
    ∀ (rest : List ℝ) (t : ℝ) (vx vy : List ℝ),
      1 < (evictWindow (t :: rest) vx vy).1.length →
      (evictWindow (t :: rest) vx vy).1.getLastD 0 -
        (evictWindow (t :: rest) vx vy).1.headD 0 ≤ 5 := by
  intro rest
  induction rest with
  | nil =>
    intro t vx vy hlen
    simp [evictWindow] at hlen
  | cons t2 r2 ih =>
    intro t vx vy
    simp only [evictWindow]
    split
    · exact ih t2 vx.tail vy.tail
    · rename_i hcond
      intro _
      have h5 : (t :: t2 :: r2).getLastD 0 - t ≤ 5 := not_lt.mp hcond
      simpa using h5

lemma evictWindow_fst_window (th vx vy : List ℝ)
    (h : 1 < (evictWindow th vx vy).1.length) :
    (evictWindow th vx vy).1.getLastD 0 -
      (evictWindow th vx vy).1.headD 0 ≤ 5 := by
  cases th with
  | nil => simp [evictWindow] at h
  | cons t rest => exact evictWindow_cons_window rest t vx vy h

/-- Claim C7: after any positive number of ticks from a running state, the
time history is nonempty (eviction never removes the last remaining sample)
and, whenever it holds more than one sample, the newest sample time minus the
oldest sample time is at most 5.0 seconds. -/
theorem history_window (s : SimState) (h : s.is_running = true) (n : ℕ)
    (hn : 1 ≤ n) :
    (ticks s n).time_history ≠ [] ∧
    (1 < (ticks s n).time_history.length →
      (ticks s n).time_history.getLastD 0 -
        (ticks s n).time_history.headD 0 ≤ 5) := by
  obtain ⟨m, rfl⟩ : ∃ m, n = m + 1 := ⟨n - 1, by omega⟩
  have hrun : (ticks s m).is_running = true := by
    rw [ticks_is_running]; exact h
  have hstep : (ticks s (m + 1)).time_history =
      (evictWindow
        ((ticks s m).time_history ++ [(ticks s m).time + (ticks s m).cfg.dt])
        ((ticks s m).voltage_history_x ++
          [(get_voltages (ticks s m) ((ticks s m).time + (ticks s m).cfg.dt)).1])
        ((ticks s m).voltage_history_y ++
          [(get_voltages (ticks s m) ((ticks s m).time + (ticks s m).cfg.dt)).2])).1 := by
    show (step_time (ticks s m)).time_history = _
    exact step_time_run_history _ hrun
  rw [hstep]
  exact ⟨evictWindow_fst_ne_nil _ _ _ (by simp), evictWindow_fst_window _ _ _⟩

/-- Witness for C7: one tick from the started initial state. -/
theorem history_window_witness :
    (start initState).is_running = true ∧ 1 ≤ 1 ∧
    ((ticks (start initState) 1).time_history ≠ [] ∧
      (1 < (ticks (start initState) 1).time_history.length →
        (ticks (start initState) 1).time_history.getLastD 0 -
          (ticks (start initState) 1).time_history.headD 0 ≤ 5)) :=
  ⟨rfl, le_refl 1, history_window (start initState) rfl 1 (le_refl 1)⟩

/-! ### Parallel-buffer helpers -/

lemma pySliceLast_length_eq (l₁ l₂ : List ℝ) (k : ℕ)
    (h : l₁.length = l₂.length) :
    (pySliceLast l₁ k).length = (pySliceLast l₂ k).length := by
  unfold pySliceLast
  split
  · exact h
  · simp [List.length_drop, h]

lemma evictWindow_lengths :
    ∀ (th vx vy : List ℝ), th.length = vx.length → th.length = vy.length →
      (evictWindow th vx vy).1.length = (evictWindow th vx vy).2.1.length ∧
      (evictWindow th vx vy).1.length = (evictWindow th vx vy).2.2.length := by
  intro th
  induction th with
  | nil =>
    intro vx vy h1 h2
    simpa [evictWindow] using ⟨h1, h2⟩
  | cons t rest ih =>
    cases rest with
    | nil =>
      intro vx vy h1 h2
      simpa [evictWindow] using ⟨h1, h2⟩
    | cons t2 r2 =>
      intro vx vy h1 h2
      simp only [List.length_cons] at h1 h2
      simp only [evictWindow]
      split
      · apply ih
        · simp only [List.length_cons, List.length_tail]
          omega
        · simp only [List.length_cons, List.length_tail]
          omega
      · constructor <;> simp only [List.length_cons] <;> omega

/-- Claim C10: every kernel operation — tick, reset, `_apply_delta_target`,
`_set_delta_by_time_origin`, trail-capacity truncation
(`_on_pers_changed`) and mode change (`_on_mode_changed`) — preserves the
parallel-buffer invariant: the two trail lists have equal length and the
three history lists have equal length. -/
theorem buffers_wf_preserved (s : SimState) (d : ℝ) (cap : ℕ) (m : Mode)
    (h : BuffersWF s) :
    BuffersWF (step_time s) ∧ BuffersWF (reset s) ∧
    BuffersWF (apply_delta_target s) ∧
    BuffersWF (set_delta_by_time_origin s d) ∧
    BuffersWF (on_pers_changed s cap) ∧ BuffersWF (on_mode_changed s m) := by
  obtain ⟨htr, hh1, hh2⟩ := h
  refine ⟨?_, ?_, ?_, ?_, ?_, ?_⟩
  · cases hr : s.is_running with
    | false =>
      have hs := step_time_stopped_aux s hr
      exact ⟨by rw [hs.1, hs.2.1]; exact htr,
             by rw [hs.2.2.1, hs.2.2.2.1]; exact hh1,
             by rw [hs.2.2.1, hs.2.2.2.2]; exact hh2⟩
    | true =>
      refine ⟨?_, ?_, ?_⟩
      · rw [step_time_run_trail_x _ hr, step_time_run_trail_y _ hr]
        by_cases hcond : (s.trail_points_x ++
            [(calculate_position s (s.time + s.cfg.dt)).1]).length >
            s.cfg.persistence
        · rw [if_pos hcond, if_pos hcond]
          exact pySliceLast_length_eq _ _ _ (by simp [htr])
        · rw [if_neg hcond, if_neg hcond]
          simp [htr]
      · rw [step_time_run_history _ hr, step_time_run_vhx _ hr]
        exact (evictWindow_lengths _ _ _ (by simp [hh1]) (by simp [hh2])).1
      · rw [step_time_run_history _ hr, step_time_run_vhy _ hr]
        exact (evictWindow_lengths _ _ _ (by simp [hh1]) (by simp [hh2])).2
  · exact ⟨rfl, rfl, rfl⟩
  · exact ⟨rfl, hh1, hh2⟩
  · simp only [set_delta_by_time_origin]
    split
    · exact ⟨rfl, hh1, hh2⟩
    · exact ⟨rfl, hh1, hh2⟩
  · simp only [on_pers_changed]
    split
    · exact ⟨pySliceLast_length_eq _ _ _ htr, hh1, hh2⟩
    · exact ⟨htr, hh1, hh2⟩
  · exact ⟨rfl, hh1, hh2⟩

/-- Witness for C10 at the initial state. -/
theorem buffers_wf_preserved_witness :
    BuffersWF initState ∧
    (BuffersWF (step_time initState) ∧ BuffersWF (reset initState) ∧
      BuffersWF (apply_delta_target initState) ∧
      BuffersWF (set_delta_by_time_origin initState 45) ∧
      BuffersWF (on_pers_changed initState 5) ∧
      BuffersWF (on_mode_changed initState Mode.sinusoidal)) :=
  ⟨⟨rfl, rfl, rfl⟩,
    buffers_wf_preserved initState 45 5 Mode.sinusoidal ⟨rfl, rfl, rfl⟩⟩

end CRT

end
